import Mathlib

/-!
Verification development for a small HTTP CRUD service over a single
collection of trading-journal entries (FastAPI + MongoDB).

The embedding follows `src/main.py` and `src/schemas.py`. The store
capability (`database.py`: `create_document`, `get_documents`; and the
MongoDB driver operations `find_one`, `update_one`, `delete_one`,
`aggregate`) is not part of the available source; those operations are
modelled from the specification and marked as such in their doc
comments. Time is abstracted as a `Nat` tick passed explicitly to the
handlers that read the clock.
-/

/-- Trading sessions, the `Literal["NY", "London", "Asia", "Other"]` of
`schemas.py`. -/
inductive Session where
  | NY
  | London
  | Asia
  | Other
deriving DecidableEq, Repr

/-- Wire string of a session value. -/
def Session.toStr : Session → String
  | .NY => "NY"
  | .London => "London"
  | .Asia => "Asia"
  | .Other => "Other"

/-- Trade outcomes, the `Literal["Win", "Loss", "Break-even"]` of
`schemas.py`. -/
inductive Outcome where
  | Win
  | Loss
  | BreakEven
deriving DecidableEq, Repr

/-- Wire string of an outcome value. -/
def Outcome.toStr : Outcome → String
  | .Win => "Win"
  | .Loss => "Loss"
  | .BreakEven => "Break-even"

/-- BSON-like values stored in documents. `vOid` carries the canonical
(lower-case) 24-hex text of an ObjectId; `vDt` is an abstract UTC
timestamp tick; `vNum` models the float fields `rr` and `lot_size` as
rationals (no arithmetic is ever performed on them); `vList` carries a
sequence of strings, the only element type the schema admits for the
array fields `tags` and `screenshots`. -/
inductive BVal where
  | vStr (s : String)
  | vNum (q : Rat)
  | vOid (hex : String)
  | vDt (t : Nat)
  | vList (l : List String)
  | vNull
deriving DecidableEq, Repr

/-- A document: a Python dict as an association list (keys unique in
every document this program builds). -/
abbrev Doc := List (String × BVal)

/-- The `journalentry` collection: documents in insertion order. -/
abbrev Store := List Doc

/-- Dictionary lookup, first match (Python `doc[k]` / `doc.get(k)`). -/
def dlookup : Doc → String → Option BVal
  | [], _ => none
  | kv :: rest, k => if kv.1 = k then some kv.2 else dlookup rest k

/-- Dictionary key-removal (Python `doc.pop(k)` after the value has been
read). -/
def dremove (d : Doc) (k : String) : Doc :=
  d.filter (fun kv => kv.1 ≠ k)

/-- Dictionary assignment `doc[k] = v`: replaces the value in place when
the key exists, otherwise appends the pair (Python dict insertion
order). -/
def dset (d : Doc) (k : String) (v : BVal) : Doc :=
  if d.any (fun kv => kv.1 = k) then
    d.map (fun kv => if kv.1 = k then (k, v) else kv)
  else d ++ [(k, v)]

/-- Apply a sequence of assignments in order (the semantics of a MongoDB
`dollar-set` update document applied to one matched document). -/
def applySet (d : Doc) (u : Doc) : Doc :=
  u.foldl (fun acc kv => dset acc kv.1 kv.2) d

/-- Hexadecimal digit test (both cases), as Python `string.hexdigits`
membership used by `bson.ObjectId`. -/
def isHexChar (c : Char) : Bool :=
  (('0' ≤ c && c ≤ '9') || ('a' ≤ c && c ≤ 'f') || ('A' ≤ c && c ≤ 'F'))

/-- Identifier codec validity check: `ObjectId.is_valid` on a string is
true iff it is a 24-character hexadecimal token. -/
def ObjectId_is_valid (s : String) : Bool :=
  s.length = 24 && s.data.all isHexChar

/-- Canonical text form of an ObjectId built from a valid hex string:
`str(ObjectId(s))` lower-cases the hex. -/
def canonOid (s : String) : String :=
  ⟨s.data.map Char.toLower⟩

/-- Modelled from the spec: ISO-8601 text representation of a timestamp
(`datetime.isoformat`). Timestamps are abstract ticks, so the rendering
is an injective textual encoding standing in for the real calendar
string. -/
def isoformat (t : Nat) : String :=
  "1970-01-01T00:00:00+00:00+" ++ toString t

/-- Python `str(...)` as used by the serializer. Only the ObjectId case
is ever exercised by the program (`str(out.pop("_id"))` on a stored
document); the remaining cases are plausible placeholders. -/
def pyStr : BVal → String
  | .vStr s => s
  | .vOid h => h
  | .vDt t => isoformat t
  | .vNum q => toString q
  | .vList _ => "[...]"
  | .vNull => "None"

/-- One timestamp-normalization block of `serialize_entry`: when the
key is present and its value is a timestamp (Python
`hasattr(..., "isoformat")`), replace it with its ISO-8601 text;
otherwise leave the dict alone. -/
def isoStage (out : Doc) (key : String) : Doc :=
  match dlookup out key with
  | some (.vDt t) => dset out key (.vStr (isoformat t))
  | _ => out

/-- Serializer of `main.py` (`serialize_entry`): `none` stands for a
Python `None` argument (a missed `find_one`). A non-empty dict without
the native `_id` key raises `KeyError` in Python, modelled as `.error`. -/
def serialize_entry : Option Doc → Except String Doc
  | none => .ok []
  | some doc =>
    if doc.isEmpty then .ok []
    else
      match dlookup doc "_id" with
      | none => .error "KeyError"
      | some v =>
        .ok (isoStage
          (isoStage (dset (dremove doc "_id") "id" (.vStr (pyStr v))) "created_at")
          "updated_at")

/-- Create payload shape (`JournalEntryCreate` in `schemas.py`); any
value of this type is a payload that passed validation. -/
structure JournalEntryCreate where
  date : String
  instrument : String
  session : Session
  rr : Option Rat := none
  lot_size : Option Rat := none
  outcome : Outcome
  notes : Option String := some ""
  tags : List String := []
  screenshots : List String := []
deriving DecidableEq, Repr

/-- Update payload shape (`JournalEntryUpdate` in `schemas.py`). The
outer `Option` is pydantic set-ness (`none` = field not supplied), the
inner one nullability (`some none` = field supplied as explicit null). -/
structure JournalEntryUpdate where
  date : Option (Option String) := none
  instrument : Option (Option String) := none
  session : Option (Option Session) := none
  rr : Option (Option Rat) := none
  lot_size : Option (Option Rat) := none
  outcome : Option (Option Outcome) := none
  notes : Option (Option String) := none
  tags : Option (Option (List String)) := none
  screenshots : Option (Option (List String)) := none
deriving DecidableEq, Repr

/-- Encode an optional value, `none` becoming BSON null (pydantic
`model_dump` turns `None` into null). -/
def optVal (f : α → BVal) : Option α → BVal
  | none => .vNull
  | some a => f a

/-- Document built from a create payload:
`JournalEntry(**payload.model_dump()).model_dump()`, fields in
declaration order of `JournalEntry`. -/
def entryDump (p : JournalEntryCreate) : Doc :=
  [("date", .vStr p.date),
   ("instrument", .vStr p.instrument),
   ("session", .vStr p.session.toStr),
   ("rr", optVal .vNum p.rr),
   ("lot_size", optVal .vNum p.lot_size),
   ("outcome", .vStr p.outcome.toStr),
   ("notes", optVal .vStr p.notes),
   ("tags", .vList p.tags),
   ("screenshots", .vList p.screenshots)]

/-- One field of `payload.model_dump(exclude_unset=True)`: nothing when
the field was not supplied, a null entry when supplied as null, an
encoded entry otherwise. -/
def updSeg (name : String) (enc : α → BVal) : Option (Option α) → Doc
  | none => []
  | some none => [(name, .vNull)]
  | some (some a) => [(name, enc a)]

/-- Full `payload.model_dump(exclude_unset=True)` of an update payload,
fields in declaration order. -/
def updDump (p : JournalEntryUpdate) : Doc :=
  updSeg "date" .vStr p.date ++
  updSeg "instrument" .vStr p.instrument ++
  updSeg "session" (fun s => .vStr s.toStr) p.session ++
  updSeg "rr" .vNum p.rr ++
  updSeg "lot_size" .vNum p.lot_size ++
  updSeg "outcome" (fun o => .vStr o.toStr) p.outcome ++
  updSeg "notes" .vStr p.notes ++
  updSeg "tags" .vList p.tags ++
  updSeg "screenshots" .vList p.screenshots

/-- The update document of `update_entry`: drop the explicit nulls from
the dump (`if v is not None`), then set `updated_at` to now (UTC). -/
def updateData (p : JournalEntryUpdate) (now : Nat) : Doc :=
  dset ((updDump p).filter (fun kv => kv.2 ≠ .vNull)) "updated_at" (.vDt now)

/-- Does a document carry the given (canonical) ObjectId as its `_id`? -/
def hasId (oid : String) (d : Doc) : Bool :=
  dlookup d "_id" = some (.vOid oid)

/-- Modelled from the spec: the store capability `find_one` filtered on
`_id` — first document (insertion order) whose `_id` equals the decoded
identifier, if any. -/
def find_one (store : Store) (oid : String) : Option Doc :=
  store.find? (hasId oid)

/-- Modelled from the spec: `create_document` of `database.py` (not
available under `src/`) — assigns `created_at = now` (UTC) to the
document before persisting, the store assigns the fresh `_id`, and the
new identifier is returned. -/
def create_document (store : Store) (entry : Doc) (now : Nat) (newOid : String) :
    Store × String :=
  let doc := dset (dset entry "created_at" (.vDt now)) "_id" (.vOid newOid)
  (store ++ [doc], newOid)

/-- Modelled from the spec: the store capability `update_one` with a
`dollar-set` update document — applies the assignments to the first
document matching the identifier and reports the matched count. -/
def update_one : Store → String → Doc → Store × Nat
  | [], _, _ => ([], 0)
  | d :: ds, oid, u =>
    if hasId oid d then (applySet d u :: ds, 1)
    else
      let r := update_one ds oid u
      (d :: r.1, r.2)

/-- Modelled from the spec: the store capability `delete_one` — removes
the first document matching the identifier and reports the deleted
count. -/
def delete_one : Store → String → Store × Nat
  | [], _ => ([], 0)
  | d :: ds, oid =>
    if hasId oid d then (ds, 1)
    else
      let r := delete_one ds oid
      (d :: r.1, r.2)

/-- One clause of the filter document built by `list_entries`:
an equality test on `date`, a membership test on `tags`
(`dollar-in`), or the free-text disjunction (`dollar-or` of
case-insensitive `dollar-regex` clauses). -/
inductive Clause where
  | eqDate (d : String)
  | tagIn (t : String)
  | orQ (q : String)
deriving DecidableEq, Repr

/-- Date clause of the filter: Python truthiness (`if date:`) skips both
an absent and an empty-string parameter. -/
def dateSeg : Option String → List Clause
  | none => []
  | some d => if d = "" then [] else [.eqDate d]

/-- Tag clause of the filter, same truthiness guard. -/
def tagSeg : Option String → List Clause
  | none => []
  | some t => if t = "" then [] else [.tagIn t]

/-- Free-text clause of the filter, same truthiness guard. -/
def qSeg : Option String → List Clause
  | none => []
  | some s => if s = "" then [] else [.orQ s]

/-- The filter document built by `list_entries` from its optional query
parameters. -/
def buildFilter (date tag q : Option String) : List Clause :=
  dateSeg date ++ tagSeg tag ++ qSeg q

/-- Case-insensitive substring test, the intended semantics of the
`dollar-regex` clauses with option `i` (the query text is treated
literally, as the spec prescribes for plain text). -/
def icontains (hay needle : String) : Bool :=
  decide ((needle.data.map Char.toLower) <:+: (hay.data.map Char.toLower))

/-- Does the free-text query match one string field of the document
case-insensitively? A missing or non-string field never matches. -/
def fieldMatches (d : Doc) (name q : String) : Bool :=
  match dlookup d name with
  | some (.vStr s) => icontains s q
  | _ => false

/-- Modelled from the spec: interpretation of one filter clause over a
document — `date` as equality, `tags` as sequence-contains, `q` as the
disjunction of case-insensitive substring matches across `notes`,
`instrument`, `session`, `outcome`. -/
def matchClause (d : Doc) : Clause → Bool
  | .eqDate s => dlookup d "date" = some (.vStr s)
  | .tagIn t =>
    match dlookup d "tags" with
    | some (.vList l) => l.contains t
    | _ => false
  | .orQ q =>
    fieldMatches d "notes" q || fieldMatches d "instrument" q ||
    fieldMatches d "session" q || fieldMatches d "outcome" q

/-- A document matches a filter iff it satisfies every clause. -/
def matchFilter (d : Doc) (filt : List Clause) : Bool :=
  filt.all (matchClause d)

/-- Modelled from the spec: `get_documents` of `database.py` (not
available under `src/`) — returns the matching documents in store
order, bounded by the limit. -/
def get_documents (store : Store) (filt : List Clause) (limit : Int) : List Doc :=
  (store.filter (fun d => matchFilter d filt)).take limit.toNat

/-- Tag sequence of one document (the elements `dollar-unwind` walks);
a missing or non-array `tags` field yields nothing. -/
def docTags (d : Doc) : List String :=
  match dlookup d "tags" with
  | some (.vList l) => l
  | _ => []

/-- Every tag occurrence across the whole store, in store order. -/
def allTags (store : Store) : List String :=
  store.flatMap docTags

/-- Occurrence count of one tag value across the store. -/
def tagCount (store : Store) (t : String) : Nat :=
  (allTags store).count t

/-- The distinct tag values of the store (`dollar-group` keys). -/
def distinctTags (store : Store) : List String :=
  (allTags store).dedup

/-- Group output of the aggregation: each distinct tag with its
occurrence count. -/
def tagGroups (store : Store) : List (String × Nat) :=
  (distinctTags store).map (fun t => (t, tagCount store t))

/-- Ordering of the `dollar-sort` stage: descending occurrence count. -/
def countGE (a b : String × Nat) : Prop := b.2 ≤ a.2

instance : DecidableRel countGE := fun a b => Nat.decLe b.2 a.2

instance : IsTotal (String × Nat) countGE :=
  ⟨fun a b => Nat.le_total b.2 a.2⟩

instance : IsTrans (String × Nat) countGE :=
  ⟨fun _ _ _ h1 h2 => Nat.le_trans h2 h1⟩

/-- Modelled from the spec: the aggregation pipeline of `get_tags` —
unwind the tags, group with occurrence counts, sort by count
descending, cap at 100, and keep only the tag names. -/
def tagPipeline (store : Store) : List String :=
  (((tagGroups store).insertionSort countGE).take 100).map Prod.fst

/-- An HTTP error raised by a handler (`HTTPException`). -/
structure HErr where
  status : Nat
  detail : String
deriving DecidableEq, Repr

/-- The 503 raised when the store capability is not configured. -/
def dbErr : HErr := ⟨503, "Database not configured"⟩

/-- The 400 raised on a malformed identifier. -/
def idErr : HErr := ⟨400, "Invalid ID"⟩

/-- The 404 raised when no record matches a well-formed identifier. -/
def nfErr : HErr := ⟨404, "Not found"⟩

/-- A store call performed by a handler, recorded in order. -/
inductive StoreOp where
  | insertDoc (d : Doc)
  | findOne (oid : String)
  | findQuery (filt : List Clause) (limit : Int)
  | updateOne (oid : String) (u : Doc)
  | deleteOne (oid : String)
  | aggregateTags
deriving DecidableEq, Repr

/-- Handler result: HTTP outcome, the store afterwards (`none` when the
capability is absent), and the trace of store calls performed. -/
abbrev HRes (α : Type) := Except HErr α × Option Store × List StoreOp

/-- Map the serializer's `KeyError` to the uncaught generic server
error the spec assigns to unexpected store-level failures. -/
def serOut (r : Except String Doc) : Except HErr Doc :=
  match r with
  | .ok d => .ok d
  | .error e => .error ⟨500, e⟩

/-- Serialize a sequence of documents, failing on the first serializer
error (the list comprehension of `list_entries`). -/
def serAll : List Doc → Except HErr (List Doc)
  | [] => .ok []
  | d :: ds =>
    match serOut (serialize_entry (some d)) with
    | .error e => .error e
    | .ok s =>
      match serAll ds with
      | .error e => .error e
      | .ok rest => .ok (s :: rest)

/-- Handler `create_entry` of `main.py`: 503 when the store is absent;
otherwise re-validate the payload as a `JournalEntry`, persist through
`create_document` (which stamps `created_at = now`), re-fetch by the
assigned id, and return the serialized record. `newOid` is the
canonical identifier the store assigns. -/
def create_entry (db : Option Store) (payload : JournalEntryCreate)
    (now : Nat) (newOid : String) : HRes Doc :=
  match db with
  | none => (.error dbErr, none, [])
  | some store =>
    let entry := entryDump payload
    let r := create_document store entry now newOid
    let doc := find_one r.1 r.2
    (serOut (serialize_entry doc), some r.1,
      [.insertDoc (dset (dset entry "created_at" (.vDt now)) "_id" (.vOid newOid)),
       .findOne r.2])

/-- Handler `list_entries` of `main.py`: 503 when the store is absent;
otherwise build the filter from the optional parameters, query bounded
by `limit` (default 200), and serialize each result. -/
def list_entries (db : Option Store) (date tag q : Option String)
    (limit : Int := 200) : HRes (List Doc) :=
  match db with
  | none => (.error dbErr, none, [])
  | some store =>
    let filt := buildFilter date tag q
    let docs := get_documents store filt limit
    (serAll docs, some store, [.findQuery filt limit])

/-- Handler `get_entry` of `main.py`: 503 when the store is absent, 400
on a malformed identifier (before any store call), 404 when nothing
matches, else the serialized record. -/
def get_entry (db : Option Store) (entry_id : String) : HRes Doc :=
  match db with
  | none => (.error dbErr, none, [])
  | some store =>
    if ObjectId_is_valid entry_id then
      match find_one store (canonOid entry_id) with
      | none => (.error nfErr, some store, [.findOne (canonOid entry_id)])
      | some doc =>
        (serOut (serialize_entry (some doc)), some store, [.findOne (canonOid entry_id)])
    else (.error idErr, some store, [])

/-- Handler `update_entry` of `main.py`: 503 when the store is absent,
400 on a malformed identifier (before any store call); otherwise build
the update document (explicitly-provided non-null fields plus
`updated_at = now`), apply it, 404 when nothing matched, else re-fetch
and return the serialized record. -/
def update_entry (db : Option Store) (entry_id : String)
    (payload : JournalEntryUpdate) (now : Nat) : HRes Doc :=
  match db with
  | none => (.error dbErr, none, [])
  | some store =>
    if ObjectId_is_valid entry_id then
      let ud := updateData payload now
      let oid := canonOid entry_id
      let r := update_one store oid ud
      if r.2 = 0 then (.error nfErr, some r.1, [.updateOne oid ud])
      else
        (serOut (serialize_entry (find_one r.1 oid)), some r.1,
          [.updateOne oid ud, .findOne oid])
    else (.error idErr, some store, [])

/-- Handler `delete_entry` of `main.py`: 503 when the store is absent,
400 on a malformed identifier (before any store call), 404 when nothing
was removed, else the confirmation object carrying the requested
identifier verbatim. -/
def delete_entry (db : Option Store) (entry_id : String) : HRes Doc :=
  match db with
  | none => (.error dbErr, none, [])
  | some store =>
    if ObjectId_is_valid entry_id then
      let oid := canonOid entry_id
      let r := delete_one store oid
      if r.2 = 0 then (.error nfErr, some r.1, [.deleteOne oid])
      else
        (.ok [("status", .vStr "deleted"), ("id", .vStr entry_id)], some r.1,
          [.deleteOne oid])
    else (.error idErr, some store, [])

/-- Handler `get_tags` of `main.py`: 503 when the store is absent, else
the aggregation pipeline's ordered tag names. -/
def get_tags (db : Option Store) : HRes (List String) :=
  match db with
  | none => (.error dbErr, none, [])
  | some store => (.ok (tagPipeline store), some store, [.aggregateTags])

/-- First-some combinator used to describe lookups over concatenated
dictionaries. -/
def ofirst (a b : Option BVal) : Option BVal :=
  match a with
  | some v => some v
  | none => b

@[simp]
theorem ofirst_some (v : BVal) (b : Option BVal) : ofirst (some v) b = some v := rfl

@[simp]
theorem ofirst_none (b : Option BVal) : ofirst none b = b := rfl

@[simp]
theorem dlookup_nil (k : String) : dlookup [] k = none := rfl

theorem dlookup_cons (kv : String × BVal) (rest : Doc) (k : String) :
    dlookup (kv :: rest) k = if kv.1 = k then some kv.2 else dlookup rest k := rfl

theorem dlookup_append (a b : Doc) (k : String) :
    dlookup (a ++ b) k = ofirst (dlookup a k) (dlookup b k) := by
  induction a with
  | nil => simp
  | cons kv rest ih =>
    by_cases h : kv.1 = k
    · simp [dlookup_cons, h]
    · simp [dlookup_cons, h, ih]

theorem dlookup_eq_none_of_any_eq_false (d : Doc) (k : String)
    (h : d.any (fun kv => kv.1 = k) = false) : dlookup d k = none := by
  induction d with
  | nil => rfl
  | cons kv rest ih =>
    simp only [List.any_cons, Bool.or_eq_false_iff, decide_eq_false_iff_not] at h
    simp [dlookup_cons, h.1, ih h.2]

theorem dlookup_map_setkey_other (d : Doc) (k k' : String) (v : BVal) (hne : k' ≠ k) :
    dlookup (d.map (fun kv => if kv.1 = k then (k, v) else kv)) k' = dlookup d k' := by
  induction d with
  | nil => rfl
  | cons kv rest ih =>
    by_cases h : kv.1 = k
    · have h2 : kv.1 ≠ k' := by rw [h]; exact fun hh => hne hh.symm
      simp [dlookup_cons, h, h2, Ne.symm hne, ih]
    · simp [dlookup_cons, h, ih]

theorem dlookup_map_setkey_self (d : Doc) (k : String) (v : BVal)
    (h : d.any (fun kv => kv.1 = k) = true) :
    dlookup (d.map (fun kv => if kv.1 = k then (k, v) else kv)) k = some v := by
  induction d with
  | nil => simp at h
  | cons kv rest ih =>
    by_cases hk : kv.1 = k
    · simp [dlookup_cons, hk]
    · simp only [List.any_cons, decide_eq_true_eq, hk, false_or] at h
      simp [dlookup_cons, hk, ih h]

theorem dlookup_dset_self (d : Doc) (k : String) (v : BVal) :
    dlookup (dset d k v) k = some v := by
  unfold dset
  by_cases h : d.any (fun kv => kv.1 = k) = true
  · simp only [h, if_pos]
    exact dlookup_map_setkey_self d k v h
  · simp only [Bool.not_eq_true] at h
    simp only [h, Bool.false_eq_true, if_neg, not_false_iff]
    rw [dlookup_append, dlookup_eq_none_of_any_eq_false d k h]
    simp [dlookup_cons]

theorem dlookup_dset_other (d : Doc) (k k' : String) (v : BVal) (hne : k' ≠ k) :
    dlookup (dset d k v) k' = dlookup d k' := by
  unfold dset
  by_cases h : d.any (fun kv => kv.1 = k) = true
  · simp only [h, if_pos]
    exact dlookup_map_setkey_other d k k' v hne
  · simp only [Bool.not_eq_true] at h
    simp only [h, Bool.false_eq_true, if_neg, not_false_iff]
    rw [dlookup_append]
    cases hd : dlookup d k' with
    | some v' => simp
    | none => simp [dlookup_cons, Ne.symm hne]

theorem dlookup_dremove_self (d : Doc) (k : String) :
    dlookup (dremove d k) k = none := by
  induction d with
  | nil => rfl
  | cons kv rest ih =>
    by_cases h : kv.1 = k
    · simpa [dremove, List.filter_cons, h, decide_not] using ih
    · simp only [dremove, List.filter_cons, decide_not] at ih ⊢
      simp [h, dlookup_cons, ih]

theorem dlookup_dremove_other (d : Doc) (k k' : String) (hne : k' ≠ k) :
    dlookup (dremove d k) k' = dlookup d k' := by
  induction d with
  | nil => rfl
  | cons kv rest ih =>
    simp only [dremove, List.filter_cons, decide_not] at ih ⊢
    by_cases h : kv.1 = k
    · have h2 : kv.1 ≠ k' := by rw [h]; exact fun hh => hne hh.symm
      simp [h, dlookup_cons, h2, Ne.symm hne, ih]
    · simp [h, dlookup_cons, ih]

theorem applySet_cons (d : Doc) (kv : String × BVal) (u : Doc) :
    applySet d (kv :: u) = applySet (dset d kv.1 kv.2) u := rfl

theorem applySet_append (d : Doc) (u1 u2 : Doc) :
    applySet d (u1 ++ u2) = applySet (applySet d u1) u2 :=
  List.foldl_append _ _ _ _

theorem dlookup_applySet (d u : Doc) (k : String) :
    dlookup (applySet d u) k = ofirst (dlookup u.reverse k) (dlookup d k) := by
  induction u generalizing d with
  | nil => simp [applySet]
  | cons kv rest ih =>
    rw [applySet_cons, ih, List.reverse_cons, dlookup_append]
    cases hr : dlookup rest.reverse k with
    | some v => simp
    | none =>
      by_cases hk : kv.1 = k
      · subst hk
        simp [dlookup_cons, dlookup_dset_self]
      · have hk' : k ≠ kv.1 := fun hh => hk hh.symm
        simp [dlookup_cons, hk, dlookup_dset_other d kv.1 k kv.2 hk']

theorem dlookup_applySet_not_mem (d u : Doc) (k : String)
    (h : dlookup u.reverse k = none) :
    dlookup (applySet d u) k = dlookup d k := by
  rw [dlookup_applySet, h, ofirst_none]

/-- Non-null part of one dumped field: what survives the
`if v is not None` filter of `update_entry`. -/
def nnSeg (name : String) (enc : α → BVal) : Option (Option α) → Doc
  | some (some a) => [(name, enc a)]
  | _ => []

/-- Value the update document carries for a field: present exactly when
the field was explicitly supplied non-null. -/
def omap (enc : α → BVal) : Option (Option α) → Option BVal
  | some (some a) => some (enc a)
  | _ => none

/-- The update document restricted to its schema fields: the non-null
segments in declaration order. -/
def nnDump (p : JournalEntryUpdate) : Doc :=
  nnSeg "date" .vStr p.date ++
  nnSeg "instrument" .vStr p.instrument ++
  nnSeg "session" (fun s => .vStr s.toStr) p.session ++
  nnSeg "rr" .vNum p.rr ++
  nnSeg "lot_size" .vNum p.lot_size ++
  nnSeg "outcome" (fun o => .vStr o.toStr) p.outcome ++
  nnSeg "notes" .vStr p.notes ++
  nnSeg "tags" .vList p.tags ++
  nnSeg "screenshots" .vList p.screenshots

theorem filter_updSeg (name : String) (enc : α → BVal)
    (h : ∀ a, enc a ≠ .vNull) (o : Option (Option α)) :
    (updSeg name enc o).filter (fun kv => kv.2 ≠ .vNull) = nnSeg name enc o := by
  rcases o with _ | (_ | a)
  · rfl
  · simp [updSeg, nnSeg, List.filter_cons]
  · simp [updSeg, nnSeg, List.filter_cons, h a]

theorem nnDump_eq (p : JournalEntryUpdate) :
    (updDump p).filter (fun kv => kv.2 ≠ .vNull) = nnDump p := by
  simp only [updDump, List.filter_append, nnDump]
  rw [filter_updSeg "date" BVal.vStr (fun a => by simp) p.date,
    filter_updSeg "instrument" BVal.vStr (fun a => by simp) p.instrument,
    filter_updSeg "session" (fun s => BVal.vStr s.toStr) (fun a => by simp) p.session,
    filter_updSeg "rr" BVal.vNum (fun a => by simp) p.rr,
    filter_updSeg "lot_size" BVal.vNum (fun a => by simp) p.lot_size,
    filter_updSeg "outcome" (fun o => BVal.vStr o.toStr) (fun a => by simp) p.outcome,
    filter_updSeg "notes" BVal.vStr (fun a => by simp) p.notes,
    filter_updSeg "tags" BVal.vList (fun a => by simp) p.tags,
    filter_updSeg "screenshots" BVal.vList (fun a => by simp) p.screenshots]

theorem nnSeg_keys (name : String) (enc : α → BVal) (o : Option (Option α))
    (k : String) (hk : name ≠ k) :
    (nnSeg name enc o).any (fun kv => kv.1 = k) = false := by
  rcases o with _ | (_ | a) <;> simp [nnSeg, hk]

theorem updateData_eq (p : JournalEntryUpdate) (now : Nat) :
    updateData p now = nnDump p ++ [("updated_at", .vDt now)] := by
  unfold updateData
  rw [nnDump_eq]
  have hany : (nnDump p).any (fun kv => kv.1 = "updated_at") = false := by
    simp only [nnDump, List.any_append, Bool.or_eq_false_iff]
    refine ⟨⟨⟨⟨⟨⟨⟨⟨?_, ?_⟩, ?_⟩, ?_⟩, ?_⟩, ?_⟩, ?_⟩, ?_⟩, ?_⟩ <;>
      exact nnSeg_keys _ _ _ _ (by decide)
  unfold dset
  simp [hany]

theorem nnSeg_reverse (name : String) (enc : α → BVal) (o : Option (Option α)) :
    (nnSeg name enc o).reverse = nnSeg name enc o := by
  rcases o with _ | (_ | a) <;> rfl

theorem dlookup_singleton (n k : String) (v : BVal) :
    dlookup [(n, v)] k = if k = n then some v else none := by
  by_cases h : n = k
  · simp [dlookup_cons, h]
  · have h2 : ¬(k = n) := fun hh => h hh.symm
    simp [dlookup_cons, h, h2]

theorem dlookup_nnSeg (name : String) (enc : α → BVal) (o : Option (Option α))
    (k : String) :
    dlookup (nnSeg name enc o) k = if k = name then omap enc o else none := by
  rcases o with _ | (_ | a)
  · simp [nnSeg, omap]
  · simp [nnSeg, omap]
  · simp [nnSeg, omap, dlookup_singleton]

theorem ofirst_none_right (a : Option BVal) : ofirst a none = a := by
  cases a <;> rfl

theorem dlookup_rev_updateData (p : JournalEntryUpdate) (now : Nat) (k : String) :
    dlookup (updateData p now).reverse k =
      if k = "updated_at" then some (.vDt now)
      else if k = "date" then omap .vStr p.date
      else if k = "instrument" then omap .vStr p.instrument
      else if k = "session" then omap (fun s => .vStr s.toStr) p.session
      else if k = "rr" then omap .vNum p.rr
      else if k = "lot_size" then omap .vNum p.lot_size
      else if k = "outcome" then omap (fun o => .vStr o.toStr) p.outcome
      else if k = "notes" then omap .vStr p.notes
      else if k = "tags" then omap .vList p.tags
      else if k = "screenshots" then omap .vList p.screenshots
      else none := by
  rw [updateData_eq]
  simp only [nnDump, List.reverse_append, nnSeg_reverse, List.reverse_cons,
    List.reverse_nil, List.nil_append, List.append_assoc, dlookup_append,
    dlookup_nnSeg, dlookup_singleton]
  by_cases h1 : k = "updated_at"
  · subst h1
    simp [ofirst_none_right]
  by_cases h2 : k = "date"
  · subst h2
    simp [ofirst_none_right]
  by_cases h3 : k = "instrument"
  · subst h3
    simp [ofirst_none_right]
  by_cases h4 : k = "session"
  · subst h4
    simp [ofirst_none_right]
  by_cases h5 : k = "rr"
  · subst h5
    simp [ofirst_none_right]
  by_cases h6 : k = "lot_size"
  · subst h6
    simp [ofirst_none_right]
  by_cases h7 : k = "outcome"
  · subst h7
    simp [ofirst_none_right]
  by_cases h8 : k = "notes"
  · subst h8
    simp [ofirst_none_right]
  by_cases h9 : k = "tags"
  · subst h9
    simp [ofirst_none_right]
  by_cases h10 : k = "screenshots"
  · subst h10
    simp [ofirst_none_right]
  simp [h1, h2, h3, h4, h5, h6, h7, h8, h9, h10, ofirst_none_right]

theorem update_one_of_find_none (store : Store) (oid : String) (u : Doc)
    (h : find_one store oid = none) : update_one store oid u = (store, 0) := by
  induction store with
  | nil => rfl
  | cons hd tl ih =>
    by_cases hh : hasId oid hd
    · simp [find_one, List.find?_cons_of_pos _ hh] at h
    · rw [find_one, List.find?_cons_of_neg _ (by simp [hh])] at h
      simp only [update_one, hh, Bool.false_eq_true, if_neg, not_false_iff]
      rw [ih h]

theorem update_one_of_find_some (store : Store) (oid : String) (u : Doc) (d : Doc)
    (h : find_one store oid = some d) :
    ∃ pre post, store = pre ++ d :: post ∧ (∀ x ∈ pre, hasId oid x = false) ∧
      update_one store oid u = (pre ++ applySet d u :: post, 1) := by
  induction store with
  | nil => simp [find_one] at h
  | cons hd tl ih =>
    by_cases hh : hasId oid hd
    · rw [find_one, List.find?_cons_of_pos _ hh] at h
      obtain rfl : hd = d := by injection h
      exact ⟨[], tl, rfl, by simp, by simp [update_one, hh]⟩
    · rw [find_one, List.find?_cons_of_neg _ (by simp [hh])] at h
      obtain ⟨pre, post, heq, hpre, hupd⟩ := ih h
      refine ⟨hd :: pre, post, by simp [heq], ?_, ?_⟩
      · intro x hx
        rcases List.mem_cons.mp hx with rfl | hx
        · simpa using hh
        · exact hpre x hx
      · simp only [update_one, hh, Bool.false_eq_true, if_neg, not_false_iff, hupd]
        simp

theorem delete_one_of_find_none (store : Store) (oid : String)
    (h : find_one store oid = none) : delete_one store oid = (store, 0) := by
  induction store with
  | nil => rfl
  | cons hd tl ih =>
    by_cases hh : hasId oid hd
    · simp [find_one, List.find?_cons_of_pos _ hh] at h
    · rw [find_one, List.find?_cons_of_neg _ (by simp [hh])] at h
      simp only [delete_one, hh, Bool.false_eq_true, if_neg, not_false_iff]
      rw [ih h]

theorem delete_one_of_find_some (store : Store) (oid : String) (d : Doc)
    (h : find_one store oid = some d) :
    ∃ pre post, store = pre ++ d :: post ∧
      delete_one store oid = (pre ++ post, 1) := by
  induction store with
  | nil => simp [find_one] at h
  | cons hd tl ih =>
    by_cases hh : hasId oid hd
    · rw [find_one, List.find?_cons_of_pos _ hh] at h
      obtain rfl : hd = d := by injection h
      exact ⟨[], tl, rfl, by simp [delete_one, hh]⟩
    · rw [find_one, List.find?_cons_of_neg _ (by simp [hh])] at h
      obtain ⟨pre, post, heq, hdel⟩ := ih h
      refine ⟨hd :: pre, post, by simp [heq], ?_⟩
      simp only [delete_one, hh, Bool.false_eq_true, if_neg, not_false_iff, hdel]
      simp

theorem delete_one_fst_sublist (store : Store) (oid : String) :
    (delete_one store oid).1.Sublist store := by
  induction store with
  | nil => simp [delete_one]
  | cons hd tl ih =>
    by_cases hh : hasId oid hd
    · simp only [delete_one, hh, if_pos]
      exact List.sublist_cons_self hd tl
    · simp only [delete_one, hh, Bool.false_eq_true, if_neg, not_false_iff]
      exact List.Sublist.cons₂ hd ih

theorem find_one_append_cons (pre post : Store) (d : Doc) (oid : String)
    (hpre : ∀ x ∈ pre, hasId oid x = false) (hd : hasId oid d = true) :
    find_one (pre ++ d :: post) oid = some d := by
  induction pre with
  | nil => simp [find_one, List.find?_cons_of_pos _ hd]
  | cons hp tl ih =>
    have h1 : hasId oid hp = false := hpre hp (List.mem_cons_self hp tl)
    rw [List.cons_append, find_one, List.find?_cons_of_neg _ (by simp [h1])]
    exact ih (fun x hx => hpre x (List.mem_cons_of_mem hp hx))

theorem serAll_length (docs res : List Doc) (h : serAll docs = .ok res) :
    res.length = docs.length := by
  induction docs generalizing res with
  | nil =>
    simp only [serAll] at h
    injection h with h
    simp [← h]
  | cons d ds ih =>
    simp only [serAll] at h
    cases hs : serOut (serialize_entry (some d)) with
    | error e => rw [hs] at h; exact absurd h (by simp)
    | ok s =>
      rw [hs] at h
      cases hr : serAll ds with
      | error e => rw [hr] at h; exact absurd h (by simp)
      | ok rest =>
        rw [hr] at h
        injection h with h
        simp [← h, ih rest hr]

/-- Normalization the serializer applies to a timestamp slot: a
timestamp becomes its ISO text, anything else (including absence) is
untouched. -/
def isoNormalize : Option BVal → Option BVal
  | some (.vDt t) => some (.vStr (isoformat t))
  | x => x

theorem dlookup_isoStage_self (out : Doc) (key : String) :
    dlookup (isoStage out key) key = isoNormalize (dlookup out key) := by
  cases h : dlookup out key with
  | none => simp [isoStage, h, isoNormalize]
  | some v =>
    cases v with
    | vDt t => simp [isoStage, h, isoNormalize, dlookup_dset_self]
    | vStr s => simp [isoStage, h, isoNormalize]
    | vNum q => simp [isoStage, h, isoNormalize]
    | vOid o => simp [isoStage, h, isoNormalize]
    | vList l => simp [isoStage, h, isoNormalize]
    | vNull => simp [isoStage, h, isoNormalize]

theorem dlookup_isoStage_other (out : Doc) (key k : String) (hne : k ≠ key) :
    dlookup (isoStage out key) k = dlookup out k := by
  cases h : dlookup out key with
  | none => simp [isoStage, h]
  | some v =>
    cases v with
    | vDt t => simp [isoStage, h, dlookup_dset_other _ _ _ _ hne]
    | vStr s => simp [isoStage, h]
    | vNum q => simp [isoStage, h]
    | vOid o => simp [isoStage, h]
    | vList l => simp [isoStage, h]
    | vNull => simp [isoStage, h]

/-- Full behaviour of the serializer on a record carrying a native
identifier: shared backbone of the serializer and create/update
theorems. -/
theorem serialize_entry_spec (doc : Doc) (v : BVal)
    (hid : dlookup doc "_id" = some v) :
    ∃ out, serialize_entry (some doc) = .ok out ∧
      dlookup out "id" = some (.vStr (pyStr v)) ∧
      dlookup out "_id" = none ∧
      dlookup out "created_at" = isoNormalize (dlookup doc "created_at") ∧
      dlookup out "updated_at" = isoNormalize (dlookup doc "updated_at") ∧
      ∀ k, k ≠ "_id" → k ≠ "id" → k ≠ "created_at" → k ≠ "updated_at" →
        dlookup out k = dlookup doc k := by
  have hne : doc.isEmpty = false := by
    cases doc
    · simp at hid
    · rfl
  refine ⟨isoStage
      (isoStage (dset (dremove doc "_id") "id" (.vStr (pyStr v))) "created_at")
      "updated_at", ?_, ?_, ?_, ?_, ?_, ?_⟩
  · simp [serialize_entry, hne, hid]
  all_goals {
    have f0id : dlookup (dset (dremove doc "_id") "id" (.vStr (pyStr v))) "id" =
        some (.vStr (pyStr v)) := dlookup_dset_self _ _ _
    have f0noid : dlookup (dset (dremove doc "_id") "id" (.vStr (pyStr v))) "_id" = none := by
      rw [dlookup_dset_other _ _ _ _ (by decide)]
      exact dlookup_dremove_self _ _
    have f0other : ∀ k, k ≠ "_id" → k ≠ "id" →
        dlookup (dset (dremove doc "_id") "id" (.vStr (pyStr v))) k = dlookup doc k := by
      intro k h1 h2
      rw [dlookup_dset_other _ _ _ _ h2]
      exact dlookup_dremove_other _ _ _ h1
    first
    | -- id
      rw [dlookup_isoStage_other _ _ _ (by decide),
        dlookup_isoStage_other _ _ _ (by decide)]
      exact f0id
    | -- _id
      rw [dlookup_isoStage_other _ _ _ (by decide),
        dlookup_isoStage_other _ _ _ (by decide)]
      exact f0noid
    | -- created_at
      rw [dlookup_isoStage_other _ _ _ (by decide), dlookup_isoStage_self,
        f0other "created_at" (by decide) (by decide)]
    | -- updated_at
      rw [dlookup_isoStage_self, dlookup_isoStage_other _ _ _ (by decide),
        f0other "updated_at" (by decide) (by decide)]
    | -- pass-through
      intro k h1 h2 h3 h4
      rw [dlookup_isoStage_other _ _ _ h4, dlookup_isoStage_other _ _ _ h3]
      exact f0other k h1 h2
  }

theorem matchFilter_append (d : Doc) (a b : List Clause) :
    matchFilter d (a ++ b) = (matchFilter d a && matchFilter d b) :=
  List.all_append

theorem matchFilter_dateSeg (doc : Doc) (date : Option String) :
    matchFilter doc (dateSeg date) = true ↔
      (∀ s, date = some s → s ≠ "" → dlookup doc "date" = some (.vStr s)) := by
  cases date with
  | none => simp [dateSeg, matchFilter]
  | some d =>
    by_cases h : d = ""
    · subst h
      simp [dateSeg, matchFilter]
    · simp [dateSeg, h, matchFilter, matchClause]

theorem tagClause_iff (doc : Doc) (t : String) :
    matchClause doc (.tagIn t) = true ↔
      ∃ l, dlookup doc "tags" = some (.vList l) ∧ t ∈ l := by
  cases h : dlookup doc "tags" with
  | none => simp [matchClause, h]
  | some v => cases v <;> simp [matchClause, h]

theorem matchFilter_tagSeg (doc : Doc) (tag : Option String) :
    matchFilter doc (tagSeg tag) = true ↔
      (∀ s, tag = some s → s ≠ "" →
        ∃ l, dlookup doc "tags" = some (.vList l) ∧ s ∈ l) := by
  cases tag with
  | none => simp [tagSeg, matchFilter]
  | some t =>
    by_cases h : t = ""
    · subst h
      simp [tagSeg, matchFilter]
    · rw [tagSeg]
      simp only [h, if_neg, not_false_iff]
      rw [show matchFilter doc [Clause.tagIn t] = matchClause doc (.tagIn t) by
        simp [matchFilter]]
      rw [tagClause_iff]
      constructor
      · rintro hl s hs hne
        injection hs with hs
        subst hs
        exact hl
      · intro hall
        exact hall t rfl h

theorem matchFilter_qSeg (doc : Doc) (q : Option String) :
    matchFilter doc (qSeg q) = true ↔
      (∀ s, q = some s → s ≠ "" →
        (fieldMatches doc "notes" s || fieldMatches doc "instrument" s ||
         fieldMatches doc "session" s || fieldMatches doc "outcome" s) = true) := by
  cases q with
  | none => simp [qSeg, matchFilter]
  | some s =>
    by_cases h : s = ""
    · subst h
      simp [qSeg, matchFilter]
    · simp [qSeg, h, matchFilter, matchClause]

theorem tagGroups_snd (store : Store) (x : String × Nat) (hx : x ∈ tagGroups store) :
    x.2 = tagCount store x.1 := by
  obtain ⟨t, _, rfl⟩ := List.mem_map.mp hx
  rfl

theorem map_fst_tagGroups (store : Store) :
    (tagGroups store).map Prod.fst = distinctTags store := by
  simp only [tagGroups, List.map_map]
  exact List.map_id _

theorem mem_distinctTags (store : Store) (t : String) :
    t ∈ distinctTags store ↔ t ∈ allTags store := List.mem_dedup

theorem tagPipeline_length (store : Store) : (tagPipeline store).length ≤ 100 := by
  unfold tagPipeline
  rw [List.length_map]
  calc (((tagGroups store).insertionSort countGE).take 100).length
      ≤ 100 := by rw [List.length_take]; exact min_le_left _ _

theorem tagPipeline_nodup (store : Store) : (tagPipeline store).Nodup := by
  unfold tagPipeline
  have hperm : List.Perm (((tagGroups store).insertionSort countGE).map Prod.fst)
      ((tagGroups store).map Prod.fst) :=
    (List.perm_insertionSort countGE (tagGroups store)).map Prod.fst
  have hnd : (((tagGroups store).insertionSort countGE).map Prod.fst).Nodup := by
    refine hperm.symm.nodup ?_
    rw [map_fst_tagGroups]
    exact List.nodup_dedup _
  exact ((List.take_sublist 100 _).map Prod.fst).nodup hnd

theorem tagPipeline_sorted (store : Store) :
    List.Sorted (fun a b => tagCount store b ≤ tagCount store a) (tagPipeline store) := by
  unfold tagPipeline
  have hs : List.Sorted countGE ((tagGroups store).insertionSort countGE) :=
    List.sorted_insertionSort countGE (tagGroups store)
  have hs2 : List.Pairwise countGE (((tagGroups store).insertionSort countGE).take 100) :=
    hs.sublist (List.take_sublist 100 _)
  have hmem : ∀ x ∈ ((tagGroups store).insertionSort countGE).take 100,
      x.2 = tagCount store x.1 := by
    intro x hx
    exact tagGroups_snd store x
      ((List.perm_insertionSort countGE (tagGroups store)).mem_iff.mp
        ((List.take_sublist 100 _).mem hx))
  have hs3 : List.Pairwise
      (fun a b : String × Nat => tagCount store b.1 ≤ tagCount store a.1)
      (((tagGroups store).insertionSort countGE).take 100) := by
    refine List.Pairwise.imp_of_mem ?_ hs2
    intro a b ha hb hab
    rw [← hmem a ha, ← hmem b hb]
    exact hab
  exact hs3.map Prod.fst (fun a b h => h)

theorem tagPipeline_mem (store : Store) (t : String) (ht : t ∈ tagPipeline store) :
    t ∈ allTags store := by
  unfold tagPipeline at ht
  obtain ⟨x, hx, rfl⟩ := List.mem_map.mp ht
  have hx2 : x ∈ tagGroups store :=
    (List.perm_insertionSort countGE (tagGroups store)).mem_iff.mp
      ((List.take_sublist 100 _).mem hx)
  have : x.1 ∈ (tagGroups store).map Prod.fst := List.mem_map_of_mem Prod.fst hx2
  rw [map_fst_tagGroups] at this
  exact (mem_distinctTags store x.1).mp this

theorem tagPipeline_complete (store : Store)
    (hcap : (distinctTags store).length ≤ 100)
    (t : String) (ht : t ∈ allTags store) : t ∈ tagPipeline store := by
  unfold tagPipeline
  have hlen : ((tagGroups store).insertionSort countGE).length ≤ 100 := by
    rw [(List.perm_insertionSort countGE (tagGroups store)).length_eq]
    rw [tagGroups, List.length_map]
    exact hcap
  rw [List.take_of_length_le hlen]
  have h1 : t ∈ distinctTags store := (mem_distinctTags store t).mpr ht
  rw [← map_fst_tagGroups] at h1
  exact (((List.perm_insertionSort countGE (tagGroups store)).map Prod.fst).mem_iff).mpr h1

/-- Concrete canonical identifier used by the witnesses. -/
def oidA : String := "0123456789abcdef01234567"

/-- A second well-formed identifier matching no stored record. -/
def oidB : String := "ffffffffffffffffffffffff"

/-- Concrete create payload used by the witnesses. -/
def payC : JournalEntryCreate :=
  { date := "2024-01-01", instrument := "ES", session := .NY, outcome := .Win }

/-- Concrete stored document used by the witnesses. -/
def docA : Doc :=
  [("date", .vStr "2024-01-01"), ("instrument", .vStr "ES"),
   ("session", .vStr "NY"), ("rr", .vNull), ("lot_size", .vNull),
   ("outcome", .vStr "Win"), ("notes", .vStr ""), ("tags", .vList ["gap"]),
   ("screenshots", .vList []), ("created_at", .vDt 5), ("_id", .vOid oidA)]

/-- Concrete one-document store used by the witnesses. -/
def storeA : Store := [docA]

/-- C1: for every valid Create payload (with a fresh store-assigned
identifier), create stamps `created_at = now` (UTC) on the document
before persisting it, and the returned serialized record carries the
input session and outcome, a set `created_at`, and no `updated_at`. -/
theorem claim_C1_create_semantics (store : Store) (p : JournalEntryCreate)
    (now : Nat) (newOid : String)
    (hfresh : ∀ d ∈ store, hasId newOid d = false) :
    ∃ out nd,
      (create_entry (some store) p now newOid).1 = .ok out ∧
      (create_entry (some store) p now newOid).2.1 = some (store ++ [nd]) ∧
      dlookup nd "created_at" = some (.vDt now) ∧
      dlookup nd "updated_at" = none ∧
      dlookup out "session" = some (.vStr p.session.toStr) ∧
      dlookup out "outcome" = some (.vStr p.outcome.toStr) ∧
      dlookup out "created_at" = some (.vStr (isoformat now)) ∧
      dlookup out "updated_at" = none := by
  have hed_ca : dlookup (entryDump p) "created_at" = none := by
    simp [entryDump, dlookup_cons]
  have hed_ua : dlookup (entryDump p) "updated_at" = none := by
    simp [entryDump, dlookup_cons]
  have hed_se : dlookup (entryDump p) "session" = some (.vStr p.session.toStr) := by
    simp [entryDump, dlookup_cons]
  have hed_ou : dlookup (entryDump p) "outcome" = some (.vStr p.outcome.toStr) := by
    simp [entryDump, dlookup_cons]
  have hid : dlookup (dset (dset (entryDump p) "created_at" (.vDt now)) "_id"
      (.vOid newOid)) "_id" = some (.vOid newOid) := dlookup_dset_self _ _ _
  have hnd_ca : dlookup (dset (dset (entryDump p) "created_at" (.vDt now)) "_id"
      (.vOid newOid)) "created_at" = some (.vDt now) := by
    rw [dlookup_dset_other _ _ _ _ (by decide)]
    exact dlookup_dset_self _ _ _
  have hnd_ua : dlookup (dset (dset (entryDump p) "created_at" (.vDt now)) "_id"
      (.vOid newOid)) "updated_at" = none := by
    rw [dlookup_dset_other _ _ _ _ (by decide),
      dlookup_dset_other _ _ _ _ (by decide)]
    exact hed_ua
  have hnd_se : dlookup (dset (dset (entryDump p) "created_at" (.vDt now)) "_id"
      (.vOid newOid)) "session" = some (.vStr p.session.toStr) := by
    rw [dlookup_dset_other _ _ _ _ (by decide),
      dlookup_dset_other _ _ _ _ (by decide)]
    exact hed_se
  have hnd_ou : dlookup (dset (dset (entryDump p) "created_at" (.vDt now)) "_id"
      (.vOid newOid)) "outcome" = some (.vStr p.outcome.toStr) := by
    rw [dlookup_dset_other _ _ _ _ (by decide),
      dlookup_dset_other _ _ _ _ (by decide)]
    exact hed_ou
  have hfind : find_one (store ++ [dset (dset (entryDump p) "created_at" (.vDt now))
      "_id" (.vOid newOid)]) newOid =
      some (dset (dset (entryDump p) "created_at" (.vDt now)) "_id" (.vOid newOid)) := by
    refine find_one_append_cons store [] _ newOid hfresh ?_
    unfold hasId
    rw [hid]
    simp
  obtain ⟨out, hser, hout_id, hout_noid, hout_ca, hout_ua, hout_pass⟩ :=
    serialize_entry_spec _ (.vOid newOid) hid
  refine ⟨out, _, ?_, ?_, hnd_ca, hnd_ua, ?_, ?_, ?_, ?_⟩
  · show (create_entry (some store) p now newOid).1 = .ok out
    simp only [create_entry, create_document]
    rw [hfind, hser]
    rfl
  · rfl
  · rw [hout_pass "session" (by decide) (by decide) (by decide) (by decide)]
    exact hnd_se
  · rw [hout_pass "outcome" (by decide) (by decide) (by decide) (by decide)]
    exact hnd_ou
  · rw [hout_ca, hnd_ca]
    rfl
  · rw [hout_ua, hnd_ua]
    rfl

/-- Witness for C1 at a concrete payload and empty store. -/
theorem claim_C1_create_semantics_witness :
    ∃ out nd,
      (create_entry (some []) payC 5 oidA).1 = .ok out ∧
      (create_entry (some []) payC 5 oidA).2.1 = some ([] ++ [nd]) ∧
      dlookup nd "created_at" = some (.vDt 5) ∧
      dlookup nd "updated_at" = none ∧
      dlookup out "session" = some (.vStr payC.session.toStr) ∧
      dlookup out "outcome" = some (.vStr payC.outcome.toStr) ∧
      dlookup out "created_at" = some (.vStr (isoformat 5)) ∧
      dlookup out "updated_at" = none :=
  claim_C1_create_semantics [] payC 5 oidA (by simp)

/-- C2: an update writes exactly the explicitly-present non-null
payload fields plus `updated_at`; an absent or explicitly-null field,
the identifier, the creation timestamp, and any other key are left
unchanged in the stored record. -/
theorem claim_C2_update_writes_exactly (store : Store) (d : Doc) (eid : String)
    (p : JournalEntryUpdate) (now : Nat)
    (hvalid : ObjectId_is_valid eid = true)
    (hfind : find_one store (canonOid eid) = some d) :
    ∃ st',
      (update_entry (some store) eid p now).2.1 = some st' ∧
      find_one st' (canonOid eid) = some (applySet d (updateData p now)) ∧
      dlookup (applySet d (updateData p now)) "updated_at" = some (.vDt now) ∧
      dlookup (applySet d (updateData p now)) "_id" = dlookup d "_id" ∧
      dlookup (applySet d (updateData p now)) "created_at" = dlookup d "created_at" ∧
      (match p.date with
       | some (some v) => dlookup (applySet d (updateData p now)) "date" = some (.vStr v)
       | _ => dlookup (applySet d (updateData p now)) "date" = dlookup d "date") ∧
      (match p.instrument with
       | some (some v) => dlookup (applySet d (updateData p now)) "instrument" = some (.vStr v)
       | _ => dlookup (applySet d (updateData p now)) "instrument" = dlookup d "instrument") ∧
      (match p.session with
       | some (some v) => dlookup (applySet d (updateData p now)) "session" = some (.vStr v.toStr)
       | _ => dlookup (applySet d (updateData p now)) "session" = dlookup d "session") ∧
      (match p.rr with
       | some (some v) => dlookup (applySet d (updateData p now)) "rr" = some (.vNum v)
       | _ => dlookup (applySet d (updateData p now)) "rr" = dlookup d "rr") ∧
      (match p.lot_size with
       | some (some v) => dlookup (applySet d (updateData p now)) "lot_size" = some (.vNum v)
       | _ => dlookup (applySet d (updateData p now)) "lot_size" = dlookup d "lot_size") ∧
      (match p.outcome with
       | some (some v) => dlookup (applySet d (updateData p now)) "outcome" = some (.vStr v.toStr)
       | _ => dlookup (applySet d (updateData p now)) "outcome" = dlookup d "outcome") ∧
      (match p.notes with
       | some (some v) => dlookup (applySet d (updateData p now)) "notes" = some (.vStr v)
       | _ => dlookup (applySet d (updateData p now)) "notes" = dlookup d "notes") ∧
      (match p.tags with
       | some (some v) => dlookup (applySet d (updateData p now)) "tags" = some (.vList v)
       | _ => dlookup (applySet d (updateData p now)) "tags" = dlookup d "tags") ∧
      (match p.screenshots with
       | some (some v) => dlookup (applySet d (updateData p now)) "screenshots" = some (.vList v)
       | _ => dlookup (applySet d (updateData p now)) "screenshots" = dlookup d "screenshots") ∧
      (∀ k, k ∉ ["date", "instrument", "session", "rr", "lot_size", "outcome",
          "notes", "tags", "screenshots", "updated_at"] →
        dlookup (applySet d (updateData p now)) k = dlookup d k) := by
  obtain ⟨pre, post, heq, hpre, hupd⟩ :=
    update_one_of_find_some store (canonOid eid) (updateData p now) d hfind
  have hmaster : ∀ k, dlookup (applySet d (updateData p now)) k =
      ofirst (dlookup (updateData p now).reverse k) (dlookup d k) :=
    fun k => dlookup_applySet d _ k
  have hid_keep : dlookup (applySet d (updateData p now)) "_id" = dlookup d "_id" := by
    rw [hmaster "_id", dlookup_rev_updateData]
    simp
  have hhasd : hasId (canonOid eid) d = true := List.find?_some hfind
  have hhas : hasId (canonOid eid) (applySet d (updateData p now)) = true := by
    unfold hasId at hhasd ⊢
    rw [hid_keep]
    exact hhasd
  refine ⟨pre ++ applySet d (updateData p now) :: post, ?_, ?_, ?_, hid_keep, ?_, ?_, ?_,
    ?_, ?_, ?_, ?_, ?_, ?_, ?_, ?_⟩
  · show (update_entry (some store) eid p now).2.1 = _
    simp only [update_entry, hvalid, if_pos]
    rw [hupd]
    simp
  · exact find_one_append_cons pre post _ (canonOid eid) hpre hhas
  · rw [hmaster "updated_at", dlookup_rev_updateData]
    simp
  · rw [hmaster "created_at", dlookup_rev_updateData]
    simp
  · rcases hc : p.date with _ | (_ | v) <;>
      simp [hmaster "date", dlookup_rev_updateData, omap, hc]
  · rcases hc : p.instrument with _ | (_ | v) <;>
      simp [hmaster "instrument", dlookup_rev_updateData, omap, hc]
  · rcases hc : p.session with _ | (_ | v) <;>
      simp [hmaster "session", dlookup_rev_updateData, omap, hc]
  · rcases hc : p.rr with _ | (_ | v) <;>
      simp [hmaster "rr", dlookup_rev_updateData, omap, hc]
  · rcases hc : p.lot_size with _ | (_ | v) <;>
      simp [hmaster "lot_size", dlookup_rev_updateData, omap, hc]
  · rcases hc : p.outcome with _ | (_ | v) <;>
      simp [hmaster "outcome", dlookup_rev_updateData, omap, hc]
  · rcases hc : p.notes with _ | (_ | v) <;>
      simp [hmaster "notes", dlookup_rev_updateData, omap, hc]
  · rcases hc : p.tags with _ | (_ | v) <;>
      simp [hmaster "tags", dlookup_rev_updateData, omap, hc]
  · rcases hc : p.screenshots with _ | (_ | v) <;>
      simp [hmaster "screenshots", dlookup_rev_updateData, omap, hc]
  · intro k hk
    simp only [List.mem_cons, List.not_mem_nil, or_false, not_or] at hk
    obtain ⟨n1, n2, n3, n4, n5, n6, n7, n8, n9, n10⟩ := hk
    rw [hmaster k, dlookup_rev_updateData]
    simp [n1, n2, n3, n4, n5, n6, n7, n8, n9, n10]

/-- Concrete update payload used by the witnesses: `instrument`
explicitly set, `notes` explicitly null, everything else absent. -/
def puW : JournalEntryUpdate := { instrument := some (some "NQ"), notes := some none }

/-- Witness for C2 at a concrete store, record and update payload. -/
theorem claim_C2_update_writes_exactly_witness :
    ∃ st',
      (update_entry (some storeA) oidA puW 9).2.1 = some st' ∧
      find_one st' (canonOid oidA) = some (applySet docA (updateData puW 9)) ∧
      dlookup (applySet docA (updateData puW 9)) "updated_at" = some (.vDt 9) ∧
      dlookup (applySet docA (updateData puW 9)) "_id" = dlookup docA "_id" ∧
      dlookup (applySet docA (updateData puW 9)) "created_at" = dlookup docA "created_at" ∧
      (match puW.date with
       | some (some v) => dlookup (applySet docA (updateData puW 9)) "date" = some (.vStr v)
       | _ => dlookup (applySet docA (updateData puW 9)) "date" = dlookup docA "date") ∧
      (match puW.instrument with
       | some (some v) => dlookup (applySet docA (updateData puW 9)) "instrument" = some (.vStr v)
       | _ => dlookup (applySet docA (updateData puW 9)) "instrument" = dlookup docA "instrument") ∧
      (match puW.session with
       | some (some v) => dlookup (applySet docA (updateData puW 9)) "session" = some (.vStr v.toStr)
       | _ => dlookup (applySet docA (updateData puW 9)) "session" = dlookup docA "session") ∧
      (match puW.rr with
       | some (some v) => dlookup (applySet docA (updateData puW 9)) "rr" = some (.vNum v)
       | _ => dlookup (applySet docA (updateData puW 9)) "rr" = dlookup docA "rr") ∧
      (match puW.lot_size with
       | some (some v) => dlookup (applySet docA (updateData puW 9)) "lot_size" = some (.vNum v)
       | _ => dlookup (applySet docA (updateData puW 9)) "lot_size" = dlookup docA "lot_size") ∧
      (match puW.outcome with
       | some (some v) => dlookup (applySet docA (updateData puW 9)) "outcome" = some (.vStr v.toStr)
       | _ => dlookup (applySet docA (updateData puW 9)) "outcome" = dlookup docA "outcome") ∧
      (match puW.notes with
       | some (some v) => dlookup (applySet docA (updateData puW 9)) "notes" = some (.vStr v)
       | _ => dlookup (applySet docA (updateData puW 9)) "notes" = dlookup docA "notes") ∧
      (match puW.tags with
       | some (some v) => dlookup (applySet docA (updateData puW 9)) "tags" = some (.vList v)
       | _ => dlookup (applySet docA (updateData puW 9)) "tags" = dlookup docA "tags") ∧
      (match puW.screenshots with
       | some (some v) => dlookup (applySet docA (updateData puW 9)) "screenshots" = some (.vList v)
       | _ => dlookup (applySet docA (updateData puW 9)) "screenshots" = dlookup docA "screenshots") ∧
      (∀ k, k ∉ ["date", "instrument", "session", "rr", "lot_size", "outcome",
          "notes", "tags", "screenshots", "updated_at"] →
        dlookup (applySet docA (updateData puW 9)) k = dlookup docA k) :=
  claim_C2_update_writes_exactly storeA docA oidA puW 9 (by decide) (by decide)

theorem updateData_empty (now : Nat) :
    updateData {} now = [("updated_at", .vDt now)] := rfl

/-- C3: `updated_at` is refreshed to now (UTC) on every successful
update with any payload — including an empty-payload update, which
changes nothing else — and no other operation changes `updated_at`:
create leaves the existing documents untouched and stores the new one
without `updated_at`; get, list and tags leave the store as it was;
delete only removes documents. -/
theorem claim_C3_updated_at_invariant :
    (∀ (store : Store) (d : Doc) (eid : String) (p : JournalEntryUpdate) (now : Nat),
      ObjectId_is_valid eid = true →
      find_one store (canonOid eid) = some d →
      ∃ st', (update_entry (some store) eid p now).2.1 = some st' ∧
        find_one st' (canonOid eid) = some (applySet d (updateData p now)) ∧
        dlookup (applySet d (updateData p now)) "updated_at" = some (.vDt now)) ∧
    (∀ (store : Store) (d : Doc) (eid : String) (now : Nat),
      ObjectId_is_valid eid = true →
      find_one store (canonOid eid) = some d →
      ∃ st', (update_entry (some store) eid {} now).2.1 = some st' ∧
        find_one st' (canonOid eid) = some (dset d "updated_at" (.vDt now)) ∧
        dlookup (dset d "updated_at" (.vDt now)) "updated_at" = some (.vDt now) ∧
        (∀ k, k ≠ "updated_at" →
          dlookup (dset d "updated_at" (.vDt now)) k = dlookup d k)) ∧
    (∀ (store : Store) (p : JournalEntryCreate) (now : Nat) (newOid : String),
      ∃ nd, (create_entry (some store) p now newOid).2.1 = some (store ++ [nd]) ∧
        dlookup nd "updated_at" = none) ∧
    (∀ (store : Store) (eid : String), (get_entry (some store) eid).2.1 = some store) ∧
    (∀ (store : Store) (date tag q : Option String) (lim : Int),
      (list_entries (some store) date tag q lim).2.1 = some store) ∧
    (∀ store : Store, (get_tags (some store)).2.1 = some store) ∧
    (∀ (store : Store) (eid : String) (st' : Store),
      (delete_entry (some store) eid).2.1 = some st' → ∀ x ∈ st', x ∈ store) := by
  refine ⟨?_, ?_, ?_, ?_, ?_, ?_, ?_⟩
  · intro store d eid p now hvalid hfind
    obtain ⟨pre, post, heq, hpre, hupd⟩ :=
      update_one_of_find_some store (canonOid eid) (updateData p now) d hfind
    have hid_keep : dlookup (applySet d (updateData p now)) "_id" = dlookup d "_id" := by
      rw [dlookup_applySet, dlookup_rev_updateData]
      simp
    have hhasd : hasId (canonOid eid) d = true := List.find?_some hfind
    have hhas : hasId (canonOid eid) (applySet d (updateData p now)) = true := by
      unfold hasId at hhasd ⊢
      rw [hid_keep]
      exact hhasd
    refine ⟨pre ++ applySet d (updateData p now) :: post, ?_, ?_, ?_⟩
    · show (update_entry (some store) eid p now).2.1 = _
      simp only [update_entry, hvalid, if_pos]
      rw [hupd]
      simp
    · exact find_one_append_cons pre post _ (canonOid eid) hpre hhas
    · rw [dlookup_applySet, dlookup_rev_updateData]
      simp
  · intro store d eid now hvalid hfind
    obtain ⟨pre, post, heq, hpre, hupd⟩ :=
      update_one_of_find_some store (canonOid eid) (updateData {} now) d hfind
    rw [updateData_empty] at hupd
    have happ : applySet d [("updated_at", .vDt now)] = dset d "updated_at" (.vDt now) := rfl
    rw [happ] at hupd
    have hhasd : hasId (canonOid eid) d = true := List.find?_some hfind
    have hother : ∀ k, k ≠ "updated_at" →
        dlookup (dset d "updated_at" (.vDt now)) k = dlookup d k :=
      fun k hk => dlookup_dset_other d _ k _ hk
    have hhas : hasId (canonOid eid) (dset d "updated_at" (.vDt now)) = true := by
      unfold hasId at hhasd ⊢
      rw [hother "_id" (by decide)]
      exact hhasd
    refine ⟨pre ++ dset d "updated_at" (.vDt now) :: post, ?_, ?_, ?_, hother⟩
    · show (update_entry (some store) eid {} now).2.1 = _
      simp only [update_entry, hvalid, if_pos, updateData_empty]
      rw [hupd]
      simp
    · exact find_one_append_cons pre post _ (canonOid eid) hpre hhas
    · exact dlookup_dset_self d _ _
  · intro store p now newOid
    exact ⟨dset (dset (entryDump p) "created_at" (.vDt now)) "_id" (.vOid newOid),
      rfl, by
        rw [dlookup_dset_other _ _ _ _ (by decide),
          dlookup_dset_other _ _ _ _ (by decide)]
        simp [entryDump, dlookup_cons]⟩
  · intro store eid
    unfold get_entry
    by_cases h : ObjectId_is_valid eid
    · simp only [h, if_pos]
      cases hf : find_one store (canonOid eid) <;> simp
    · simp [h]
  · intro store date tag q lim
    rfl
  · intro store
    rfl
  · intro store eid st' hdel x hx
    unfold delete_entry at hdel
    by_cases h : ObjectId_is_valid eid
    · simp only [h, if_pos] at hdel
      by_cases hz : (delete_one store (canonOid eid)).2 = 0
      · simp only [hz, if_pos] at hdel
        injection hdel with hdel
        subst hdel
        exact ((delete_one_fst_sublist store (canonOid eid)).mem hx)
      · simp only [hz, if_neg, not_false_iff] at hdel
        injection hdel with hdel
        subst hdel
        exact ((delete_one_fst_sublist store (canonOid eid)).mem hx)
    · simp only [h, Bool.false_eq_true, if_neg, not_false_iff] at hdel
      injection hdel with hdel
      subst hdel
      exact hx

/-- Witness for C3 at the concrete store: a non-empty-payload update
and an empty-payload update on the stored record, a create on the
empty store, the read-only handlers, and a delete. -/
theorem claim_C3_updated_at_invariant_witness :
    (∃ st', (update_entry (some storeA) oidA puW 9).2.1 = some st' ∧
      find_one st' (canonOid oidA) = some (applySet docA (updateData puW 9)) ∧
      dlookup (applySet docA (updateData puW 9)) "updated_at" = some (.vDt 9)) ∧
    (∃ st', (update_entry (some storeA) oidA {} 9).2.1 = some st' ∧
      find_one st' (canonOid oidA) = some (dset docA "updated_at" (.vDt 9)) ∧
      dlookup (dset docA "updated_at" (.vDt 9)) "updated_at" = some (.vDt 9) ∧
      (∀ k, k ≠ "updated_at" →
        dlookup (dset docA "updated_at" (.vDt 9)) k = dlookup docA k)) ∧
    (∃ nd, (create_entry (some []) payC 5 oidA).2.1 = some ([] ++ [nd]) ∧
      dlookup nd "updated_at" = none) ∧
    (get_entry (some storeA) oidA).2.1 = some storeA ∧
    (get_tags (some storeA)).2.1 = some storeA ∧
    (∀ x ∈ ([] : Store), x ∈ storeA) := by
  have h := claim_C3_updated_at_invariant
  refine ⟨h.1 storeA docA oidA puW 9 (by decide) (by decide),
    h.2.1 storeA docA oidA 9 (by decide) (by decide),
    h.2.2.1 [] payC 5 oidA, h.2.2.2.1 storeA oidA, h.2.2.2.2.2.1 storeA, ?_⟩
  exact h.2.2.2.2.2.2 storeA oidA [] (by decide)

/-- C4: a syntactically invalid identifier makes get, update and delete
fail with the 400 client error, leaving the store untouched and
performing no store call (empty operation trace). -/
theorem claim_C4_invalid_id_rejected (store : Store) (eid : String)
    (p : JournalEntryUpdate) (now : Nat)
    (hinv : ObjectId_is_valid eid = false) :
    get_entry (some store) eid = (.error idErr, some store, []) ∧
    update_entry (some store) eid p now = (.error idErr, some store, []) ∧
    delete_entry (some store) eid = (.error idErr, some store, []) := by
  unfold get_entry update_entry delete_entry
  simp [hinv]

/-- Witness for C4 at the identifier "xyz". -/
theorem claim_C4_invalid_id_rejected_witness :
    get_entry (some storeA) "xyz" = (.error idErr, some storeA, []) ∧
    update_entry (some storeA) "xyz" {} 0 = (.error idErr, some storeA, []) ∧
    delete_entry (some storeA) "xyz" = (.error idErr, some storeA, []) :=
  claim_C4_invalid_id_rejected storeA "xyz" {} 0 (by decide)

/-- C5: a well-formed identifier matching no record makes get, update
and delete fail with the 404 not-found error, and a successful delete
returns exactly the confirmation object with the requested identifier. -/
theorem claim_C5_not_found_and_delete_confirmation (store : Store) (eid : String)
    (p : JournalEntryUpdate) (now : Nat)
    (hvalid : ObjectId_is_valid eid = true) :
    (find_one store (canonOid eid) = none →
      (get_entry (some store) eid).1 = .error nfErr ∧
      (update_entry (some store) eid p now).1 = .error nfErr ∧
      (delete_entry (some store) eid).1 = .error nfErr) ∧
    (∀ d, find_one store (canonOid eid) = some d →
      (delete_entry (some store) eid).1 =
        .ok [("status", .vStr "deleted"), ("id", .vStr eid)]) := by
  constructor
  · intro hnone
    refine ⟨?_, ?_, ?_⟩
    · unfold get_entry
      simp [hvalid, hnone]
    · unfold update_entry
      simp [hvalid, update_one_of_find_none store (canonOid eid) (updateData p now) hnone]
    · unfold delete_entry
      simp [hvalid, delete_one_of_find_none store (canonOid eid) hnone]
  · intro d hsome
    obtain ⟨pre, post, heq, hdel⟩ := delete_one_of_find_some store (canonOid eid) d hsome
    unfold delete_entry
    simp [hvalid, hdel]

/-- Witness for C5: a miss on a fresh well-formed identifier and a hit
on the stored one. -/
theorem claim_C5_not_found_and_delete_confirmation_witness :
    ((get_entry (some storeA) oidB).1 = .error nfErr ∧
     (update_entry (some storeA) oidB {} 0).1 = .error nfErr ∧
     (delete_entry (some storeA) oidB).1 = .error nfErr) ∧
    (delete_entry (some storeA) oidA).1 =
      .ok [("status", .vStr "deleted"), ("id", .vStr oidA)] :=
  ⟨(claim_C5_not_found_and_delete_confirmation storeA oidB {} 0 (by decide)).1 (by decide),
   (claim_C5_not_found_and_delete_confirmation storeA oidA {} 0 (by decide)).2
     docA (by decide)⟩

/-- C6 counterexample: a present but empty `date` parameter (reachable
as the query string `date=`) contributes no equality clause — the
built filter is empty and even a document without a `date` field
matches it, so "an equality clause on date when date is present" fails
as stated. -/
theorem claim_C6_counterexample :
    buildFilter (some "") (some "") (some "") = [] ∧
    buildFilter (some "") none none = [] ∧
    matchFilter [] (buildFilter (some "") none none) = true := by decide

/-- C6 amended: the query builder contributes an equality clause on
`date`, a sequence-membership clause on `tags`, and the
case-insensitive substring disjunction for `q`, for each parameter
that is present AND non-empty (Python truthiness); an absent or empty
parameter contributes no clause; with all parameters absent the filter
is empty and every record matches (the listing returns the whole store
up to the limit); the result count is bounded by the limit parameter,
whose default is 200. -/
theorem claim_C6_filter_semantics :
    (∀ (doc : Doc) (date tag q : Option String),
      matchFilter doc (buildFilter date tag q) = true ↔
        ((∀ s, date = some s → s ≠ "" → dlookup doc "date" = some (.vStr s)) ∧
         (∀ s, tag = some s → s ≠ "" →
           ∃ l, dlookup doc "tags" = some (.vList l) ∧ s ∈ l) ∧
         (∀ s, q = some s → s ≠ "" →
           (fieldMatches doc "notes" s || fieldMatches doc "instrument" s ||
            fieldMatches doc "session" s || fieldMatches doc "outcome" s) = true))) ∧
    buildFilter none none none = [] ∧
    (∀ (store : Store) (lim : Int),
      get_documents store (buildFilter none none none) lim = store.take lim.toNat) ∧
    (∀ (store : Store) (date tag q : Option String) (lim : Int) res st ops,
      list_entries (some store) date tag q lim = (.ok res, st, ops) →
      res.length ≤ lim.toNat) ∧
    (∀ (db : Option Store) (date tag q : Option String),
      list_entries db date tag q = list_entries db date tag q 200) := by
  refine ⟨?_, rfl, ?_, ?_, ?_⟩
  · intro doc date tag q
    rw [buildFilter, matchFilter_append, matchFilter_append]
    rw [Bool.and_eq_true, Bool.and_eq_true]
    rw [matchFilter_dateSeg, matchFilter_tagSeg, matchFilter_qSeg]
    exact and_assoc
  · intro store lim
    unfold get_documents buildFilter dateSeg tagSeg qSeg
    simp [matchFilter]
  · intro store date tag q lim res st ops h
    unfold list_entries at h
    have hser : serAll (get_documents store (buildFilter date tag q) lim) = .ok res := by
      have := congrArg Prod.fst h
      simpa using this
    rw [serAll_length _ _ hser]
    unfold get_documents
    rw [List.length_take]
    exact min_le_left _ _
  · intro db date tag q
    rfl

/-- Witness for C6 amended: the length bound applied at the empty
store, and the iff applied at the concrete document with all three
parameters present and matching. -/
theorem claim_C6_filter_semantics_witness :
    ([] : List Doc).length ≤ (200 : Int).toNat ∧
    matchFilter docA (buildFilter (some "2024-01-01") (some "gap") (some "es")) = true := by
  have h := claim_C6_filter_semantics
  constructor
  · exact h.2.2.2.1 [] none none none 200 [] (some [])
      [StoreOp.findQuery (buildFilter none none none) 200] rfl
  · refine (h.1 docA (some "2024-01-01") (some "gap") (some "es")).mpr ⟨?_, ?_, ?_⟩
    · intro s hs hne
      cases hs
      decide
    · intro s hs hne
      cases hs
      exact ⟨["gap"], by decide, by decide⟩
    · intro s hs hne
      cases hs
      decide

/-- C7: the tags aggregation returns only tag names that occur in the
store, with no duplicates, ordered by descending occurrence count,
capped at 100; when at most 100 distinct tags exist, every occurring
tag is returned. -/
theorem claim_C7_tags_aggregation (store : Store) :
    get_tags (some store) = (.ok (tagPipeline store), some store, [.aggregateTags]) ∧
    (tagPipeline store).length ≤ 100 ∧
    (tagPipeline store).Nodup ∧
    List.Sorted (fun a b => tagCount store b ≤ tagCount store a) (tagPipeline store) ∧
    (∀ t ∈ tagPipeline store, t ∈ allTags store) ∧
    ((distinctTags store).length ≤ 100 → ∀ t ∈ allTags store, t ∈ tagPipeline store) :=
  ⟨rfl, tagPipeline_length store, tagPipeline_nodup store, tagPipeline_sorted store,
   fun t ht => tagPipeline_mem store t ht,
   fun hcap t ht => tagPipeline_complete store hcap t ht⟩

/-- Witness for C7 at the concrete store. -/
theorem claim_C7_tags_aggregation_witness :
    (tagPipeline storeA).length ≤ 100 ∧
    (∀ t ∈ tagPipeline storeA, t ∈ allTags storeA) ∧
    (∀ t ∈ allTags storeA, t ∈ tagPipeline storeA) := by
  have h := claim_C7_tags_aggregation storeA
  exact ⟨h.2.1, h.2.2.2.2.1, h.2.2.2.2.2 (by decide)⟩

/-- C8: with the store capability unconfigured, every data-touching
handler fails immediately with the 503 error, performs no store call
(empty trace) and leaves the (absent) state unchanged. -/
theorem claim_C8_store_unconfigured (p : JournalEntryCreate) (pu : JournalEntryUpdate)
    (date tag q : Option String) (lim : Int) (eid : String) (now : Nat) (newOid : String) :
    create_entry none p now newOid = (.error dbErr, none, []) ∧
    list_entries none date tag q lim = (.error dbErr, none, []) ∧
    get_entry none eid = (.error dbErr, none, []) ∧
    update_entry none eid pu now = (.error dbErr, none, []) ∧
    delete_entry none eid = (.error dbErr, none, []) ∧
    get_tags none = (.error dbErr, none, []) :=
  ⟨rfl, rfl, rfl, rfl, rfl, rfl⟩

/-- C9: the serializer maps an absent or empty record to the empty
mapping; otherwise it drops the native `_id`, adds the text field `id`
with the encoded identifier, normalizes timestamp-valued
`created_at`/`updated_at` to ISO text, and passes every other field
through unchanged. -/
theorem claim_C9_serializer (doc : Doc) (v : BVal)
    (hid : dlookup doc "_id" = some v) :
    serialize_entry none = .ok [] ∧
    serialize_entry (some []) = .ok [] ∧
    ∃ out, serialize_entry (some doc) = .ok out ∧
      dlookup out "id" = some (.vStr (pyStr v)) ∧
      dlookup out "_id" = none ∧
      dlookup out "created_at" = isoNormalize (dlookup doc "created_at") ∧
      dlookup out "updated_at" = isoNormalize (dlookup doc "updated_at") ∧
      (∀ k, k ≠ "_id" → k ≠ "id" → k ≠ "created_at" → k ≠ "updated_at" →
        dlookup out k = dlookup doc k) :=
  ⟨rfl, rfl, serialize_entry_spec doc v hid⟩

/-- Witness for C9 at the concrete stored document. -/
theorem claim_C9_serializer_witness :
    serialize_entry none = .ok [] ∧
    serialize_entry (some []) = .ok [] ∧
    ∃ out, serialize_entry (some docA) = .ok out ∧
      dlookup out "id" = some (.vStr (pyStr (.vOid oidA))) ∧
      dlookup out "_id" = none ∧
      dlookup out "created_at" = isoNormalize (dlookup docA "created_at") ∧
      dlookup out "updated_at" = isoNormalize (dlookup docA "updated_at") ∧
      (∀ k, k ≠ "_id" → k ≠ "id" → k ≠ "created_at" → k ≠ "updated_at" →
        dlookup out k = dlookup docA k) :=
  claim_C9_serializer docA (.vOid oidA) (by decide)

/-- C10: with the store unconfigured, a request with a syntactically
invalid identifier still fails with the 503 service-unavailable error,
not the 400 client error: the store check precedes identifier
validation. -/
theorem claim_C10_unconfigured_beats_invalid_id (eid : String)
    (p : JournalEntryUpdate) (now : Nat)
    (hinv : ObjectId_is_valid eid = false) :
    (get_entry none eid).1 = .error dbErr ∧ (get_entry none eid).1 ≠ .error idErr ∧
    (update_entry none eid p now).1 = .error dbErr ∧
    (update_entry none eid p now).1 ≠ .error idErr ∧
    (delete_entry none eid).1 = .error dbErr ∧
    (delete_entry none eid).1 ≠ .error idErr := by
  refine ⟨rfl, ?_, rfl, ?_, rfl, ?_⟩ <;>
    simp [get_entry, update_entry, delete_entry, dbErr, idErr]

/-- Witness for C10 at the identifier "xyz". -/
theorem claim_C10_unconfigured_beats_invalid_id_witness :
    (get_entry none "xyz").1 = .error dbErr ∧ (get_entry none "xyz").1 ≠ .error idErr ∧
    (update_entry none "xyz" {} 0).1 = .error dbErr ∧
    (update_entry none "xyz" {} 0).1 ≠ .error idErr ∧
    (delete_entry none "xyz").1 = .error dbErr ∧
    (delete_entry none "xyz").1 ≠ .error idErr :=
  claim_C10_unconfigured_beats_invalid_id "xyz" {} 0 (by decide)
